import Mathlib

/-!
# Verification of selected components of the Transformers repository

Shallow embedding, in Lean 4, of the pure algorithmic content of:

* `src/transformers/agents/llm_engine.py` (message-role normalisation and
  stop-sequence trimming of the LLM agent engines);
* `src/transformers/models/gpt_neo/configuration_gpt_neo.py`
  (`GPTNeoConfig.__init__`, `expand_attention_types_params`,
  `custom_get_block_length_and_num_blocks`);
* `src/transformers/pipelines/image_feature_extraction.py` and
  `src/transformers/pipelines/object_detection.py` (pipeline stage glue);
* `src/transformers/tokenization_layoutlm.py` (tokenizer vocabulary maps).

Python dictionaries with string keys and values are embedded as insertion
ordered association lists; Python exceptions are embedded as `Except`/`Option`
results; external framework calls (image loading, tensor ops, the model
forward) are fields of a pipeline structure, i.e. arbitrary functions.
-/

namespace Transformers

/-! ## GPT-Neo configuration (`configuration_gpt_neo.py`) -/

/-- Embedding of the static method `GPTNeoConfig.expand_attention_types_params`:
`attentions` starts empty and, for each `item` of `attention_types`, the list
`item[0]` is appended `item[1]` times. -/
def expand_attention_types_params (attention_types : List (List String × Nat)) :
    List String :=
  attention_types.foldl
    (fun attentions item => attentions ++ (List.replicate item.2 item.1).flatten) []

/-- The default value of the `attention_types` argument of
`GPTNeoConfig.__init__`. -/
def default_attention_types : List (List String × Nat) := [(["global", "local"], 12)]

/-- Embedding of the attribute bag built by `GPTNeoConfig.__init__`.  The field
`F` stands for the Python float type (the embedding is independent of how
floats behave, since the constructor only stores them).  The structure holds
exactly the attributes that `GPTNeoConfig.__init__` assigns on `self`; it has
no field for model parameter tensors. -/
structure GPTNeoConfig (F : Type) where
  vocab_size : Nat
  max_position_embeddings : Nat
  hidden_size : Nat
  num_layers : Nat
  num_heads : Nat
  intermediate_size : Option Nat
  window_size : Nat
  activation_function : String
  resid_dropout : F
  embed_dropout : F
  attention_dropout : F
  layer_norm_epsilon : F
  initializer_range : F
  summary_type : String
  summary_use_proj : Bool
  summary_activation : Option String
  summary_first_dropout : F
  summary_proj_to_labels : Bool
  vocab_parallel_embedding : Bool
  make_vocab_size_divisible_by : Nat
  use_cache : Bool
  bos_token_id : Nat
  eos_token_id : Nat
  attention_types : List (List String × Nat)
  attention_layers : List String
  deriving Repr, DecidableEq

/-- Embedding of `GPTNeoConfig.__init__`: every named hyperparameter argument
is stored unchanged under the same name, `attention_layers` is computed by
`expand_attention_types_params`, and a `ValueError` is raised when the
expanded list's length differs from `num_layers`. -/
def GPTNeoConfig.mk? (F : Type) (vocab_size : Nat := 50257)
    (max_position_embeddings : Nat := 2048) (hidden_size : Nat := 2048)
    (num_layers : Nat := 24)
    (attention_types : List (List String × Nat) := default_attention_types)
    (num_heads : Nat := 16) (intermediate_size : Option Nat := none)
    (window_size : Nat := 256) (activation_function : String := "gelu_new")
    (resid_dropout : F) (embed_dropout : F) (attention_dropout : F)
    (layer_norm_epsilon : F) (initializer_range : F)
    (summary_type : String := "cls_index") (summary_use_proj : Bool := true)
    (summary_activation : Option String := none)
    (summary_proj_to_labels : Bool := true) (summary_first_dropout : F)
    (vocab_parallel_embedding : Bool := false)
    (make_vocab_size_divisible_by : Nat := 128) (use_cache : Bool := true)
    (bos_token_id : Nat := 50256) (eos_token_id : Nat := 50256) :
    Except String (GPTNeoConfig F) :=
  let attention_layers := expand_attention_types_params attention_types
  if attention_layers.length ≠ num_layers then
    .error "Configuration for convolutional module is incorrect. It is required that len(config.attention_layers) == config.num_layers."
  else
    .ok {
      vocab_size := vocab_size
      max_position_embeddings := max_position_embeddings
      hidden_size := hidden_size
      num_layers := num_layers
      num_heads := num_heads
      intermediate_size := intermediate_size
      window_size := window_size
      activation_function := activation_function
      resid_dropout := resid_dropout
      embed_dropout := embed_dropout
      attention_dropout := attention_dropout
      layer_norm_epsilon := layer_norm_epsilon
      initializer_range := initializer_range
      summary_type := summary_type
      summary_use_proj := summary_use_proj
      summary_activation := summary_activation
      summary_first_dropout := summary_first_dropout
      summary_proj_to_labels := summary_proj_to_labels
      vocab_parallel_embedding := vocab_parallel_embedding
      make_vocab_size_divisible_by := make_vocab_size_divisible_by
      use_cache := use_cache
      bos_token_id := bos_token_id
      eos_token_id := eos_token_id
      attention_types := attention_types
      attention_layers := attention_layers }

/-- Embedding of `custom_get_block_length_and_num_blocks`:
`candidates = torch.arange(1, window_size)`, keep the candidates that divide
`seq_length` exactly, take the largest (a runtime error — modelled as `none` —
when no candidate exists), and return it with the floor quotient. -/
def custom_get_block_length_and_num_blocks (seq_length window_size : Nat) :
    Option (Nat × Nat) :=
  let candidates := List.range' 1 (window_size - 1)
  let divisors := candidates.filter (fun c => seq_length % c == 0)
  match divisors.maximum with
  | ⊥ => none
  | (largest_divisor : Nat) => some (largest_divisor, seq_length / largest_divisor)

/-! ## Stop-sequence trimming (`llm_engine.py`, `HfApiEngine.__call__` and
`TransformersEngine.__call__`) -/

/-- One iteration of the stop-sequence removal loop of `HfApiEngine.__call__`:
`if response[-len(stop_seq):] == stop_seq: response = response[:-len(stop_seq)]`.
Python slice semantics are kept: for `len(stop_seq) = 0`, `response[-0:]` is the
whole string and `response[:-0]` is the empty string; for positive lengths the
slices clamp, which `String.takeRight`/`String.dropRight` also do. -/
def hfApiEngine_remove_step (response stop_seq : String) : String :=
  if (if stop_seq.length = 0 then response else response.takeRight stop_seq.length)
      = stop_seq
  then (if stop_seq.length = 0 then "" else response.dropRight stop_seq.length)
  else response

/-- The stop-sequence removal loop at the end of `HfApiEngine.__call__`: one
pass over `stop_sequences` in list order. -/
def hfApiEngine_remove_stop_sequences (response : String)
    (stop_sequences : List String) : String :=
  stop_sequences.foldl hfApiEngine_remove_step response

/-- One iteration of the (textually identical) stop-sequence removal loop of
`TransformersEngine.__call__`. -/
def transformersEngine_remove_step (response stop_seq : String) : String :=
  if (if stop_seq.length = 0 then response else response.takeRight stop_seq.length)
      = stop_seq
  then (if stop_seq.length = 0 then "" else response.dropRight stop_seq.length)
  else response

/-- The stop-sequence removal loop at the end of `TransformersEngine.__call__`:
guarded by `if stop_sequences is not None`, then one pass in list order. -/
def transformersEngine_remove_stop_sequences (response : String)
    (stop_sequences : Option (List String)) : String :=
  match stop_sequences with
  | none => response
  | some l => l.foldl transformersEngine_remove_step response

/-! ## Image feature extraction pipeline (`image_feature_extraction.py`) -/

/-- Abstract environment of an `ImageFeatureExtractionPipeline`.  The external
components the pipeline glues together — image loading, the image processor,
the model forward, and the framework's tensor-to-nested-list conversions — are
arbitrary functions held as fields.  `Img` is the type of accepted image
arguments, `PImg` loaded (PIL) images, `TIn` processed model inputs, `Tensor`
framework tensors, `NL` nested lists of floats. -/
structure ImageFeatureExtractionPipeline (Img PImg TIn Tensor NL : Type) where
  framework : String
  load_image : Img → PImg
  image_processor : PImg → TIn
  model : TIn → List Tensor
  tolist : Tensor → NL
  numpy_tolist : Tensor → NL

namespace ImageFeatureExtractionPipeline

variable {Img PImg TIn Tensor NL : Type}

/-- Embedding of `ImageFeatureExtractionPipeline.preprocess`: load the image,
then apply the image processor (`return_tensors=self.framework`). -/
def preprocess (p : ImageFeatureExtractionPipeline Img PImg TIn Tensor NL)
    (image : Img) : TIn :=
  p.image_processor (p.load_image image)

/-- Embedding of `ImageFeatureExtractionPipeline._forward`: apply the model to
the processed inputs. -/
def forward (p : ImageFeatureExtractionPipeline Img PImg TIn Tensor NL)
    (model_inputs : TIn) : List Tensor :=
  p.model model_inputs

/-- Embedding of `ImageFeatureExtractionPipeline.postprocess`:
`model_outputs[0]` unchanged when `return_tensors` is true, otherwise
`model_outputs[0].tolist()` for the `"pt"` framework and
`model_outputs[0].numpy().tolist()` for `"tf"`.  Indexing an empty output and
the implicit `None` fall-through for any other framework are both modelled as
`none`. -/
def postprocess (p : ImageFeatureExtractionPipeline Img PImg TIn Tensor NL)
    (model_outputs : List Tensor) (return_tensors : Bool) : Option (Tensor ⊕ NL) :=
  if return_tensors then model_outputs.head?.map Sum.inl
  else if p.framework = "pt" then
    model_outputs.head?.map (fun t => Sum.inr (p.tolist t))
  else if p.framework = "tf" then
    model_outputs.head?.map (fun t => Sum.inr (p.numpy_tolist t))
  else none

/-- Modelled from the spec: the base `Pipeline.__call__` (its module
`pipelines/base.py` is not part of the source tree) "chains pre-processing,
model inference, and post-processing", i.e. it runs `preprocess`, `_forward`,
`postprocess` in order. -/
def call (p : ImageFeatureExtractionPipeline Img PImg TIn Tensor NL)
    (image : Img) (return_tensors : Bool) : Option (Tensor ⊕ NL) :=
  p.postprocess (p.forward (p.preprocess image)) return_tensors

end ImageFeatureExtractionPipeline

/-- Concrete instantiation of the abstract pipeline environment, used by the
closed witness below. -/
def sampleIFEPipeline : ImageFeatureExtractionPipeline Nat Nat Nat Nat (List Nat) where
  framework := "pt"
  load_image := fun n => n + 1
  image_processor := fun n => n * 2
  model := fun n => [n, n + 5]
  tolist := fun t => [t]
  numpy_tolist := fun t => [t, t]

/-! ## Tokenizer vocabularies (`tokenization_layoutlm.py`) -/

/-- Modelled from the spec: a tokenizer vocabulary is a "string-to-integer
mapping" (spec glossary and data model).  The `BertTokenizer` implementation
that `LayoutLMTokenizer` inherits everything from is not part of the source
tree; a vocabulary is embedded as an insertion-ordered association list of
(token, id) pairs, as loaded from a `vocab.txt` file. -/
abbrev Vocab := List (String × Nat)

/-- Modelled from the spec: converting a token string to its integer id is a
lookup in the string-to-integer vocabulary mapping. -/
def convert_token_to_id (vocab : Vocab) (token : String) : Option Nat :=
  (vocab.find? (fun p => p.1 == token)).map (·.2)

/-- Modelled from the spec: converting an integer id back to a token string is
a lookup in the inverse (`ids_to_tokens`) direction of the vocabulary. -/
def convert_id_to_token (vocab : Vocab) (i : Nat) : Option String :=
  (vocab.find? (fun p => p.2 == i)).map (·.1)

/-- Embedding of `VOCAB_FILES_NAMES` of `tokenization_layoutlm.py`, the
vocabulary-file configuration that the `LayoutLMTokenizer` class body
overrides. -/
def LAYOUTLM_VOCAB_FILES_NAMES : List (String × String) := [("vocab_file", "vocab.txt")]

/-- Embedding of `LayoutLMTokenizer`: its class body overrides only the four
vocabulary-file configuration tables (`vocab_files_names`,
`pretrained_vocab_files_map`, `pretrained_init_configuration`,
`max_model_input_sizes`) and inherits every method of `BertTokenizer`
unchanged, so its tokenization is exactly `BertTokenizer`'s.  `bert_tokenize`
stands for the inherited `BertTokenizer` end-to-end tokenization, whose
implementation is outside the source tree. -/
def layoutlm_tokenize (bert_tokenize : Vocab → String → List String)
    (vocab : Vocab) (text : String) : List String :=
  bert_tokenize vocab text

/-! ## Message-role normalisation (`llm_engine.py`, `get_clean_message_list`)

A chat message is a Python `dict` with string keys and values; it is embedded
as an insertion-ordered association list.  The two `ValueError`s the function
can raise are embedded as an error type.  The `deepcopy` at the top of
`get_clean_message_list` makes the Python function pure (the original input
list is never modified), which this functional embedding reflects. -/

/-- A Python `dict` with string keys and values, as an insertion-ordered
association list. -/
abbrev PyDict := List (String × String)

/-- `d[k]`: the value of the first entry with key `k` (the empty string when
absent; the loop only reads keys it has validated to be present). -/
def dget : PyDict → String → String
  | [], _ => ""
  | p :: rest, k => if p.1 = k then p.2 else dget rest k

/-- `d[k] = v` on a dict whose key `k` is present: the entry is updated in
place, preserving insertion order. -/
def dset : PyDict → String → String → PyDict
  | [], _, _ => []
  | p :: rest, k, v => (if p.1 = k then (k, v) else p) :: dset rest k v

/-- The validation `set(message.keys()) == {"role", "content"}`. -/
def keysOk (d : PyDict) : Bool :=
  (d.map Prod.fst).all (fun k => k == "role" || k == "content")
    && (d.map Prod.fst).contains "role" && (d.map Prod.fst).contains "content"

/-- Embedding of `MessageRole.roles()`: the values of the `MessageRole`
string enumeration. -/
def MessageRole.roles : List String :=
  ["user", "assistant", "system", "tool-call", "tool-response"]

/-- The two `ValueError`s of `get_clean_message_list`: wrong key set, or an
unsupported role (the Python message interpolates the offending role). -/
inductive MessageError where
  | badKeys
  | badRole (role : String)
  deriving Repr, DecidableEq

/-- The separator `"\n=======\n"` used when concatenating the contents of
consecutive messages with the same role. -/
def messageSeparator : String := "\n=======\n"

/-- Lines 55–56 of `llm_engine.py`: `if role in role_conversions:
message["role"] = role_conversions[role]`. -/
def convertRole (role_conversions : List (String × String)) (message : PyDict) :
    PyDict :=
  match role_conversions.lookup (dget message "role") with
  | some r => dset message "role" r
  | none => message

/-- The loop of `get_clean_message_list`; `final` is `final_message_list`.
Each message is checked for its key set and then its (pre-conversion) role;
after role conversion the message is either merged into the last accumulated
message (same role) or appended. -/
def get_clean_message_list_loop (role_conversions : List (String × String)) :
    List PyDict → List PyDict → Except MessageError (List PyDict)
  | [], final => .ok final
  | message :: rest, final =>
    if keysOk message = false then .error .badKeys
    else if (MessageRole.roles.contains (dget message "role")) = false then
      .error (.badRole (dget message "role"))
    else
      let message' := convertRole role_conversions message
      match final.getLast? with
      | some last =>
        if dget message' "role" = dget last "role" then
          get_clean_message_list_loop role_conversions rest
            (final.dropLast
              ++ [dset last "content"
                    (dget last "content" ++ messageSeparator ++ dget message' "content")])
        else get_clean_message_list_loop role_conversions rest (final ++ [message'])
      | none => get_clean_message_list_loop role_conversions rest [message']

/-- Embedding of `get_clean_message_list(message_list, role_conversions)`. -/
def get_clean_message_list (message_list : List PyDict)
    (role_conversions : List (String × String) := []) :
    Except MessageError (List PyDict) :=
  get_clean_message_list_loop role_conversions message_list []

/-- Embedding of `llama_role_conversions`: tool-response messages become user
messages. -/
def llama_role_conversions : List (String × String) := [("tool-response", "user")]

/-- A validated chat message, i.e. the content of a dict whose key set is
exactly `{"role", "content"}`. -/
structure Message where
  role : String
  content : String
  deriving Repr, DecidableEq

/-- Projection of a message dict to its two significant fields. -/
def projMessage (d : PyDict) : Message := ⟨dget d "role", dget d "content"⟩

/-- Role conversion as it acts on a projected message. -/
def applyRoleConversion (role_conversions : List (String × String)) (m : Message) :
    Message :=
  match role_conversions.lookup m.role with
  | some r => ⟨r, m.content⟩
  | none => m

/-- Message-level image of `get_clean_message_list_loop` on validated input:
identical merge/append logic, without the dict plumbing. -/
def clean_loop (role_conversions : List (String × String)) :
    List Message → List Message → List Message
  | [], final => final
  | m :: rest, final =>
    let m' := applyRoleConversion role_conversions m
    match final.getLast? with
    | some last =>
      if m'.role = last.role then
        clean_loop role_conversions rest
          (final.dropLast ++ [⟨last.role, last.content ++ messageSeparator ++ m'.content⟩])
      else clean_loop role_conversions rest (final ++ [m'])
    | none => clean_loop role_conversions rest [m']

/-- Intermediate form: `mergeAux cur ms` folds the messages `ms` into the
current accumulated message `cur`, merging equal-role neighbours. -/
def mergeAux (cur : Message) : List Message → List Message
  | [] => [cur]
  | m :: rest =>
    if m.role = cur.role then
      mergeAux ⟨cur.role, cur.content ++ messageSeparator ++ m.content⟩ rest
    else cur :: mergeAux m rest

/-- Specification-side (wording of the claim): extend the current maximal run
`run` (nonempty, in input order) of consecutive messages sharing one role. -/
def runsAux (run : List Message) : List Message → List (List Message)
  | [] => [run]
  | m :: rest =>
    if m.role = (run.headD ⟨"", ""⟩).role then runsAux (run ++ [m]) rest
    else run :: runsAux [m] rest

/-- Specification-side (wording of the claim): the decomposition of a message
list into its maximal runs of consecutive messages sharing the same role. -/
def specRuns : List Message → List (List Message)
  | [] => []
  | m :: rest => runsAux [m] rest

/-- Specification-side (wording of the claim): contents joined in input order
by the separator. -/
def joinContents : List String → String
  | [] => ""
  | [s] => s
  | s :: rest => s ++ messageSeparator ++ joinContents rest

/-- Specification-side (wording of the claim): a maximal run collapses to a
single message carrying the run's common role and its joined contents. -/
def collapseRun (run : List Message) : Message :=
  ⟨(run.headD ⟨"", ""⟩).role, joinContents (run.map (·.content))⟩

/-- Specification-side (wording of the claim): the error produced by the first
invalid message in input order, checking the key set before the role. -/
def firstErrorOf : List PyDict → Option MessageError
  | [] => none
  | m :: rest =>
    if keysOk m = false then some .badKeys
    else if (MessageRole.roles.contains (dget m "role")) = false then
      some (.badRole (dget m "role"))
    else firstErrorOf rest

/-! ## Object detection pipeline (`object_detection.py`) -/

/-- A corner dictionary `{"x": ..., "y": ...}` as produced by
`_get_clockwise_vertices`. -/
structure Vertex where
  x : Int
  y : Int
  deriving Repr, DecidableEq

/-- Python/torch `int()` truncation toward zero of a (rational-modelled) float
coordinate, as in `box.int().tolist()`. -/
def pyInt (q : ℚ) : Int := Int.tdiv q.num (q.den : Int)

/-- One annotation as returned by the external `feature_extractor.post_process`
(not in the source tree): parallel columns of scores, label ids, and boxes in
corners format `(xmin, ymin, xmax, ymax)`; its `values()` iterate in the order
scores, labels, boxes. -/
structure RawAnn where
  scores : List ℚ
  labels : List Int
  boxes : List (ℚ × ℚ × ℚ × ℚ)
  deriving Repr, DecidableEq

/-- One result dictionary `dict(zip(["score", "label", "box"], vals))`: it has
exactly the keys `"score"`, `"label"`, `"box"`. -/
structure Prediction where
  score : ℚ
  label : String
  box : List Vertex
  deriving Repr, DecidableEq

/-- The `keys` list of line 144 of `object_detection.py`. -/
def predictionKeys : List String := ["score", "label", "box"]

/-- Embedding of `ObjectDetectionPipeline._get_clockwise_vertices`: the four
corners of a box, from `(xmin, ymin, xmax, ymax)`. -/
def get_clockwise_vertices (box : ℚ × ℚ × ℚ × ℚ) : List Vertex :=
  let xmin := pyInt box.1
  let ymin := pyInt box.2.1
  let xmax := pyInt box.2.2.1
  let ymax := pyInt box.2.2.2
  [⟨xmin, ymin⟩, ⟨xmax, ymin⟩, ⟨xmax, ymax⟩, ⟨xmin, ymax⟩]

/-- Specification-side (wording of the claim): the four corner dictionaries of
the bounding box `[x0, x1] × [y0, y1]` in clockwise order starting from the
top-left corner — top-left, top-right, bottom-right, bottom-left in image
coordinates (y grows downward). -/
def specClockwiseFromTopLeft (x0 y0 x1 y1 : Int) : List Vertex :=
  [⟨x0, y0⟩, ⟨x1, y0⟩, ⟨x1, y1⟩, ⟨x0, y1⟩]

/-- Boolean-mask tensor indexing `t[keep]`: keep the entries whose parallel
mask entry is true. -/
def maskFilter {α : Type _} : List Bool → List α → List α
  | b :: bs, x :: xs => if b then x :: maskFilter bs xs else maskFilter bs xs
  | _, _ => []

/-- The per-annotation post-filtering of `ObjectDetectionPipeline.__call__`
(lines 133–147): `keep = scores > threshold`, mask the three columns, convert
label ids through `id2label` and boxes through `_get_clockwise_vertices`, and
re-shape the column dict into one dictionary per detection via
`zip(*annotation.values())`. -/
def processAnn (id2label : Int → String) (threshold : ℚ)
    (ann : RawAnn) : List Prediction :=
  let keep := ann.scores.map (fun s => decide (threshold < s))
  let scores := maskFilter keep ann.scores
  let labels := (maskFilter keep ann.labels).map id2label
  let boxes := (maskFilter keep ann.boxes).map get_clockwise_vertices
  (scores.zip (labels.zip boxes)).map (fun t => ⟨t.1, t.2.1, t.2.2⟩)

/-- Abstract environment of an `ObjectDetectionPipeline`: the external
components (image loading, the feature extractor, the model forward, its
`post_process`, and the model config's `id2label` table) are arbitrary
functions held as fields.  `load_image` may fail (`ValueError` on a bad image
format). -/
structure ObjectDetectionPipeline (Img PImg ModelIn ModelOut : Type) where
  load_image : Img → Option PImg
  height : PImg → Nat
  width : PImg → Nat
  feature_extractor : List PImg → ModelIn
  model : ModelIn → ModelOut
  post_process : ModelOut → List (Nat × Nat) → List RawAnn
  id2label : Int → String

/-- The input of `__call__`: a single image or a batch
(`is_batched = isinstance(images, list)`). -/
inductive ImageInput (Img : Type) where
  | single (image : Img)
  | batch (images : List Img)

/-- Embedding of `ObjectDetectionPipeline.__call__` (threshold defaults to
0.9): load the images, run the feature extractor and the model, post-process
with per-image `(height, width)` target sizes, filter and re-shape each
annotation, and return `annotations[0]` for a single image or the full list
for a batch. -/
def ObjectDetectionPipeline.call {Img PImg ModelIn ModelOut : Type}
    (p : ObjectDetectionPipeline Img PImg ModelIn ModelOut)
    (input : ImageInput Img) (threshold : ℚ := 9 / 10) :
    Option ((List Prediction) ⊕ (List (List Prediction))) :=
  let images := match input with
    | .single i => [i]
    | .batch l => l
  match images.mapM p.load_image with
  | none => none
  | some pimgs =>
    let inputs := p.feature_extractor pimgs
    let outputs := p.model inputs
    let target_sizes := pimgs.map (fun im => (p.height im, p.width im))
    let annotations := p.post_process outputs target_sizes
    let processed := annotations.map (processAnn p.id2label threshold)
    match input with
    | .single _ => (processed.head?).map Sum.inl
    | .batch _ => some (Sum.inr processed)

/-- Concrete annotation used by the closed witness: two detections, of which
only the second has score above 0.9. -/
def sampleAnn : RawAnn :=
  ⟨[1/2, 19/20], [3, 7], [(1, 2, 3, 4), (5, 6, 7, 8)]⟩

/-- Concrete instantiation of the abstract object-detection pipeline
environment, used by the closed witness. -/
def sampleODPipeline : ObjectDetectionPipeline Nat Nat (List Nat) Unit where
  load_image := fun n => some (n + 1)
  height := fun n => n
  width := fun n => n + 2
  feature_extractor := fun l => l
  model := fun _ => ()
  post_process := fun _ ts => ts.map (fun _ => sampleAnn)
  id2label := fun i => toString i

/-! ## Supporting lemmas -/

theorem vocab_find_token (vocab : Vocab) (token : String) (i : Nat)
    (hmem : (token, i) ∈ vocab) (hnd : (vocab.map Prod.fst).Nodup) :
    vocab.find? (fun p => p.1 == token) = some (token, i) := by
  induction vocab with
  | nil => simp at hmem
  | cons x xs ih =>
    simp only [List.map_cons, List.nodup_cons] at hnd
    rcases List.mem_cons.mp hmem with heq | hmem'
    · subst heq
      simp [List.find?_cons_of_pos]
    · have hx : x.1 ≠ token := by
        intro hcontra
        exact hnd.1 (hcontra ▸ (List.mem_map.mpr ⟨(token, i), hmem', rfl⟩))
      rw [List.find?_cons_of_neg _ (by simpa using hx)]
      exact ih hmem' hnd.2

theorem vocab_find_id (vocab : Vocab) (token : String) (i : Nat)
    (hmem : (token, i) ∈ vocab) (hnd : (vocab.map Prod.snd).Nodup) :
    vocab.find? (fun p => p.2 == i) = some (token, i) := by
  induction vocab with
  | nil => simp at hmem
  | cons x xs ih =>
    simp only [List.map_cons, List.nodup_cons] at hnd
    rcases List.mem_cons.mp hmem with heq | hmem'
    · subst heq
      simp [List.find?_cons_of_pos]
    · have hx : x.2 ≠ i := by
        intro hcontra
        exact hnd.1 (hcontra ▸ (List.mem_map.mpr ⟨(token, i), hmem', rfl⟩))
      rw [List.find?_cons_of_neg _ (by simpa using hx)]
      exact ih hmem' hnd.2

theorem foldl_append_flatten {α β : Type _} (f : β → List α) :
    ∀ (l : List β) (acc : List α),
      l.foldl (fun a i => a ++ f i) acc = acc ++ (l.map f).flatten
  | [], _ => by simp
  | b :: l, acc => by simp [foldl_append_flatten f l (acc ++ f b)]

theorem expand_eq_flatten (ats : List (List String × Nat)) :
    expand_attention_types_params ats
      = (ats.map (fun item => (List.replicate item.2 item.1).flatten)).flatten := by
  unfold expand_attention_types_params
  simpa using foldl_append_flatten _ ats []

theorem length_flatten_replicate {α : Type _} (n : Nat) (l : List α) :
    ((List.replicate n l).flatten).length = l.length * n := by
  induction n with
  | zero => simp
  | succ k ih => simp [List.replicate_succ, ih]; ring

theorem expand_length (ats : List (List String × Nat)) :
    (expand_attention_types_params ats).length
      = (ats.map (fun item => item.1.length * item.2)).sum := by
  rw [expand_eq_flatten]
  induction ats with
  | nil => simp
  | cons a l ih => simp [length_flatten_replicate, ih, Nat.mul_comm]

theorem cgb_eq_of_maximum (seq ws d : Nat)
    (h : ((List.range' 1 (ws - 1)).filter (fun c => seq % c == 0)).maximum
          = (d : WithBot Nat)) :
    custom_get_block_length_and_num_blocks seq ws = some (d, seq / d) := by
  unfold custom_get_block_length_and_num_blocks
  simp only []
  rw [h]
  rfl

theorem keys_dset (d : PyDict) (k v : String) :
    (dset d k v).map Prod.fst = d.map Prod.fst := by
  induction d with
  | nil => rfl
  | cons p rest ih =>
    by_cases hp : p.1 = k
    · simp [dset, hp, ih]
    · simp [dset, hp, ih]

theorem dget_dset_same (d : PyDict) (k v : String) (h : k ∈ d.map Prod.fst) :
    dget (dset d k v) k = v := by
  induction d with
  | nil => simp at h
  | cons p rest ih =>
    by_cases hp : p.1 = k
    · simp [dset, dget, hp]
    · have h' : k ∈ rest.map Prod.fst := by
        rw [List.map_cons, List.mem_cons] at h
        rcases h with h1 | h1
        · exact absurd h1.symm hp
        · exact h1
      simp [dset, dget, hp, ih h']

theorem dget_dset_ne (d : PyDict) (k v k' : String) (h : k ≠ k') :
    dget (dset d k v) k' = dget d k' := by
  induction d with
  | nil => rfl
  | cons p rest ih =>
    by_cases hp : p.1 = k
    · simp [dset, dget, hp, h, ih]
    · by_cases hp' : p.1 = k'
      · have hk : k' ≠ k := fun hh => hp (hp'.trans hh)
        simp [dset, dget, hp, hp', hk]
      · simp [dset, dget, hp, hp', ih]

theorem keysOk_mem_role (d : PyDict) (h : keysOk d = true) :
    "role" ∈ d.map Prod.fst := by
  simp [keysOk] at h
  obtain ⟨x, hx⟩ := h.1.2
  exact List.mem_map.mpr ⟨("role", x), hx, rfl⟩

theorem keysOk_mem_content (d : PyDict) (h : keysOk d = true) :
    "content" ∈ d.map Prod.fst := by
  simp [keysOk] at h
  obtain ⟨x, hx⟩ := h.2
  exact List.mem_map.mpr ⟨("content", x), hx, rfl⟩

theorem keysOk_dset (d : PyDict) (k v : String) (h : keysOk d = true) :
    keysOk (dset d k v) = true := by
  simp [keysOk, keys_dset] at h ⊢
  exact h

theorem proj_dset_role (d : PyDict) (r : String) (h : keysOk d = true) :
    projMessage (dset d "role" r) = ⟨r, dget d "content"⟩ := by
  simp [projMessage, dget_dset_same d "role" r (keysOk_mem_role d h),
    dget_dset_ne d "role" r "content" (by decide)]

theorem proj_dset_content (d : PyDict) (c : String) (h : keysOk d = true) :
    projMessage (dset d "content" c) = ⟨dget d "role", c⟩ := by
  simp [projMessage, dget_dset_same d "content" c (keysOk_mem_content d h),
    dget_dset_ne d "content" c "role" (by decide)]

theorem proj_convertRole (rc : List (String × String)) (d : PyDict)
    (h : keysOk d = true) :
    projMessage (convertRole rc d) = applyRoleConversion rc (projMessage d)
    ∧ keysOk (convertRole rc d) = true := by
  unfold convertRole applyRoleConversion
  have hrole : (projMessage d).role = dget d "role" := rfl
  rw [hrole]
  cases hl : rc.lookup (dget d "role") with
  | none => exact ⟨rfl, h⟩
  | some r =>
    refine ⟨?_, keysOk_dset d "role" r h⟩
    rw [proj_dset_role d r h]
    rfl

theorem mergeAux_ne_nil (ms : List Message) : ∀ cur, mergeAux cur ms ≠ [] := by
  induction ms with
  | nil => intro cur; simp [mergeAux]
  | cons m rest ih =>
    intro cur
    unfold mergeAux
    by_cases h : m.role = cur.role
    · simpa [h] using ih _
    · simp [h]

theorem mergeAux_head_role (ms : List Message) :
    ∀ cur, ((mergeAux cur ms).headD ⟨"", ""⟩).role = cur.role := by
  induction ms with
  | nil => intro cur; simp [mergeAux]
  | cons m rest ih =>
    intro cur
    unfold mergeAux
    by_cases h : m.role = cur.role
    · simpa [h] using ih _
    · simp [h]

theorem mergeAux_chain (ms : List Message) :
    ∀ cur, List.Chain' (fun a b => a.role ≠ b.role) (mergeAux cur ms) := by
  induction ms with
  | nil => intro cur; simp [mergeAux]
  | cons m rest ih =>
    intro cur
    unfold mergeAux
    by_cases h : m.role = cur.role
    · simpa [h] using ih _
    · simp only [h, if_false]
      rw [List.chain'_cons']
      refine ⟨?_, ih m⟩
      intro b hb
      have hne := mergeAux_ne_nil rest m
      have hhead := mergeAux_head_role rest m
      cases hmerge : mergeAux m rest with
      | nil => exact absurd hmerge hne
      | cons x xs =>
        rw [hmerge] at hb hhead
        simp at hb hhead
        rw [hb] at hhead
        intro hcontra
        exact h ((hcontra.trans hhead).symm)

theorem joinContents_append (l : List String) (s : String) (h : l ≠ []) :
    joinContents (l ++ [s]) = joinContents l ++ messageSeparator ++ s := by
  induction l with
  | nil => contradiction
  | cons a t ih =>
    cases t with
    | nil => simp [joinContents]
    | cons b u =>
      have ih' := ih (by simp)
      simp only [List.cons_append] at ih' ⊢
      rw [show joinContents (a :: b :: (u ++ [s]))
            = a ++ messageSeparator ++ joinContents (b :: (u ++ [s])) from rfl, ih',
        show joinContents (a :: b :: u)
            = a ++ messageSeparator ++ joinContents (b :: u) from rfl]
      simp [String.append_assoc]

theorem collapseRun_singleton (m : Message) : collapseRun [m] = m := by
  cases m
  simp [collapseRun, joinContents]

theorem collapseRun_append (run : List Message) (m : Message) (h : run ≠ []) :
    collapseRun (run ++ [m])
      = ⟨(collapseRun run).role,
         (collapseRun run).content ++ messageSeparator ++ m.content⟩ := by
  cases run with
  | nil => contradiction
  | cons a t =>
    simp only [collapseRun, List.cons_append, List.headD_cons, List.map_append,
      List.map_cons, List.map_nil]
    rw [← List.cons_append a.content]
    rw [joinContents_append _ _ (by simp)]

theorem mergeAux_eq_collapse_runs (ms : List Message) :
    ∀ run : List Message, run ≠ [] →
      mergeAux (collapseRun run) ms = (runsAux run ms).map collapseRun := by
  induction ms with
  | nil => intro run _; simp [mergeAux, runsAux]
  | cons m rest ih =>
    intro run h
    unfold mergeAux runsAux
    have hrole : (collapseRun run).role = (run.headD ⟨"", ""⟩).role := rfl
    by_cases hm : m.role = (run.headD ⟨"", ""⟩).role
    · rw [if_pos (by rw [hrole]; exact hm), if_pos hm]
      rw [show (⟨(collapseRun run).role,
            (collapseRun run).content ++ messageSeparator ++ m.content⟩ : Message)
          = collapseRun (run ++ [m]) from (collapseRun_append run m h).symm]
      exact ih (run ++ [m]) (by simp)
    · rw [if_neg (by rw [hrole]; exact hm), if_neg hm]
      rw [List.map_cons]
      congr 1
      have h2 := ih [m] (by simp)
      rwa [collapseRun_singleton m] at h2

theorem clean_loop_cons (rc : List (String × String)) (m : Message)
    (rest final : List Message) :
    clean_loop rc (m :: rest) final =
      match final.getLast? with
      | some last =>
        if (applyRoleConversion rc m).role = last.role then
          clean_loop rc rest
            (final.dropLast
              ++ [⟨last.role,
                   last.content ++ messageSeparator ++ (applyRoleConversion rc m).content⟩])
        else clean_loop rc rest (final ++ [applyRoleConversion rc m])
      | none => clean_loop rc rest [applyRoleConversion rc m] := rfl

theorem clean_loop_concat (rc : List (String × String)) (ms : List Message) :
    ∀ (final : List Message) (cur : Message),
      clean_loop rc ms (final ++ [cur])
        = final ++ mergeAux cur (ms.map (applyRoleConversion rc)) := by
  induction ms with
  | nil => intro final cur; simp [clean_loop, mergeAux]
  | cons m rest ih =>
    intro final cur
    rw [clean_loop_cons, List.getLast?_concat]
    simp only [List.map_cons]
    by_cases hrole : (applyRoleConversion rc m).role = cur.role
    · rw [if_pos hrole, List.dropLast_concat,
        ih final ⟨cur.role, cur.content ++ messageSeparator
          ++ (applyRoleConversion rc m).content⟩]
      congr 1
      simp only [mergeAux]
      rw [if_pos hrole]
    · rw [if_neg hrole, ih (final ++ [cur]) (applyRoleConversion rc m)]
      simp only [mergeAux]
      rw [if_neg hrole]
      simp

theorem clean_loop_eq_runs (rc : List (String × String)) (ms : List Message) :
    clean_loop rc ms []
      = (specRuns (ms.map (applyRoleConversion rc))).map collapseRun := by
  cases ms with
  | nil => rfl
  | cons m rest =>
    rw [clean_loop_cons]
    simp only [List.getLast?_nil]
    rw [show [applyRoleConversion rc m] = ([] : List Message) ++ [applyRoleConversion rc m]
      from rfl]
    rw [clean_loop_concat]
    simp only [List.nil_append]
    have h2 := mergeAux_eq_collapse_runs (rest.map (applyRoleConversion rc))
      [applyRoleConversion rc m] (by simp)
    rw [collapseRun_singleton] at h2
    rw [h2]
    rfl

theorem gcml_loop_simulation (rc : List (String × String)) (ms : List PyDict) :
    ∀ final : List PyDict,
      (∀ m ∈ ms, keysOk m = true
        ∧ MessageRole.roles.contains (dget m "role") = true) →
      (∀ f ∈ final, keysOk f = true) →
      ∃ L, get_clean_message_list_loop rc ms final = .ok L
        ∧ (∀ x ∈ L, keysOk x = true)
        ∧ L.map projMessage
            = clean_loop rc (ms.map projMessage) (final.map projMessage) := by
  induction ms with
  | nil => intro final _ hf; exact ⟨final, rfl, hf, rfl⟩
  | cons message rest ih =>
    intro final hv hf
    obtain ⟨hk, hr⟩ := hv message (List.mem_cons_self _ _)
    have hvrest : ∀ m ∈ rest, keysOk m = true
        ∧ MessageRole.roles.contains (dget m "role") = true :=
      fun m hm => hv m (List.mem_cons_of_mem _ hm)
    obtain ⟨hproj, hk'⟩ := proj_convertRole rc message hk
    unfold get_clean_message_list_loop
    rw [if_neg (by rw [hk]; simp), if_neg (by rw [hr]; simp)]
    simp only []
    rw [List.map_cons, clean_loop_cons]
    cases hlast : final.getLast? with
    | none =>
      have hfin : final = [] := List.getLast?_eq_none_iff.mp hlast
      subst hfin
      simp only [List.map_nil, List.getLast?_nil]
      obtain ⟨L, hok, hkeys, hmap⟩ := ih [convertRole rc message] hvrest
        (by intro f hfm; simp at hfm; subst hfm; exact hk')
      refine ⟨L, hok, hkeys, ?_⟩
      rw [hmap]
      simp [hproj]
    | some last =>
      have hlastmem : last ∈ final := List.mem_of_getLast?_eq_some hlast
      have hklast : keysOk last = true := hf last hlastmem
      have hlast' : (final.map projMessage).getLast? = some (projMessage last) := by
        rw [List.getLast?_map, hlast]; rfl
      rw [hlast']
      simp only []
      have hcond : (dget (convertRole rc message) "role" = dget last "role")
          ↔ ((applyRoleConversion rc (projMessage message)).role
              = (projMessage last).role) := by
        rw [← hproj]; exact Iff.rfl
      by_cases hsame : (applyRoleConversion rc (projMessage message)).role
          = (projMessage last).role
      · rw [if_pos (hcond.mpr hsame), if_pos hsame]
        have hfok : ∀ f ∈ (final.dropLast
            ++ [dset last "content"
                  (dget last "content" ++ messageSeparator
                    ++ dget (convertRole rc message) "content")]), keysOk f = true := by
          intro f hfm
          rcases List.mem_append.mp hfm with hfm | hfm
          · exact hf f (List.mem_of_mem_dropLast hfm)
          · simp at hfm
            subst hfm
            exact keysOk_dset last "content" _ hklast
        obtain ⟨L, hok, hkeys, hmap⟩ := ih _ hvrest hfok
        refine ⟨L, hok, hkeys, ?_⟩
        rw [hmap]
        congr 1
        rw [List.map_append, List.map_dropLast]
        congr 1
        simp only [List.map_cons, List.map_nil]
        congr 1
        rw [proj_dset_content last _ hklast]
        have h1 : dget last "role" = (projMessage last).role := rfl
        have h2 : dget last "content" = (projMessage last).content := rfl
        have h3 : dget (convertRole rc message) "content"
            = (applyRoleConversion rc (projMessage message)).content := by
          rw [← hproj]; rfl
        rw [h1, h2, h3]
      · rw [if_neg (fun hc => hsame (hcond.mp hc)), if_neg hsame]
        have hfok : ∀ f ∈ (final ++ [convertRole rc message]), keysOk f = true := by
          intro f hfm
          rcases List.mem_append.mp hfm with hfm | hfm
          · exact hf f hfm
          · simp at hfm
            subst hfm
            exact hk'
        obtain ⟨L, hok, hkeys, hmap⟩ := ih _ hvrest hfok
        refine ⟨L, hok, hkeys, ?_⟩
        rw [hmap]
        congr 1
        rw [List.map_append]
        simp [hproj]

theorem gcml_loop_vs_firstError (rc : List (String × String)) (ms : List PyDict) :
    ∀ final : List PyDict,
      (∀ e, firstErrorOf ms = some e →
          get_clean_message_list_loop rc ms final = .error e)
      ∧ (firstErrorOf ms = none →
          ∃ L, get_clean_message_list_loop rc ms final = .ok L) := by
  induction ms with
  | nil =>
    intro final
    refine ⟨fun e he => ?_, fun _ => ⟨final, rfl⟩⟩
    simp [firstErrorOf] at he
  | cons m rest ih =>
    intro final
    unfold firstErrorOf get_clean_message_list_loop
    by_cases hk : keysOk m = false
    · rw [if_pos hk, if_pos hk]
      refine ⟨fun e he => ?_, fun hn => ?_⟩
      · injection he with he; rw [he]
      · simp at hn
    · rw [if_neg hk, if_neg hk]
      by_cases hr : MessageRole.roles.contains (dget m "role") = false
      · rw [if_pos hr, if_pos hr]
        refine ⟨fun e he => ?_, fun hn => ?_⟩
        · injection he with he; rw [he]
        · simp at hn
      · rw [if_neg hr, if_neg hr]
        simp only []
        cases final.getLast? with
        | none => exact ih _
        | some last =>
          dsimp only
          by_cases hs : dget (convertRole rc m) "role" = dget last "role"
          · rw [if_pos hs]; exact ih _
          · rw [if_neg hs]; exact ih _

theorem firstErrorOf_eq_none_iff (ms : List PyDict) :
    firstErrorOf ms = none
      ↔ ∀ m ∈ ms, keysOk m = true
          ∧ MessageRole.roles.contains (dget m "role") = true := by
  induction ms with
  | nil => simp [firstErrorOf]
  | cons m rest ihm =>
    unfold firstErrorOf
    by_cases hk : keysOk m = false
    · rw [if_pos hk]
      constructor
      · intro h; simp at h
      · intro h
        have h1 := (h m (List.mem_cons_self _ _)).1
        rw [h1] at hk
        simp at hk
    · rw [if_neg hk]
      by_cases hr : MessageRole.roles.contains (dget m "role") = false
      · rw [if_pos hr]
        constructor
        · intro h; simp at h
        · intro h
          have h1 := (h m (List.mem_cons_self _ _)).2
          rw [h1] at hr
          simp at hr
      · rw [if_neg hr]
        simp only [Bool.not_eq_false] at hk hr
        rw [ihm]
        constructor
        · intro h m' hm'
          rcases List.mem_cons.mp hm' with hm1 | hm1
          · subst hm1; exact ⟨hk, hr⟩
          · exact h m' hm1
        · intro h m' hm'
          exact h m' (List.mem_cons_of_mem _ hm')

theorem get_clean_message_list_concrete_eval : get_clean_message_list
    [[("role", "user"), ("content", "a")],
     [("role", "tool-response"), ("content", "b")],
     [("role", "assistant"), ("content", "c")]] llama_role_conversions
  = .ok [[("role", "user"), ("content", "a\n=======\nb")],
         [("role", "assistant"), ("content", "c")]] := by rfl

theorem length_mapM_option {α β : Type _} (f : α → Option β) :
    ∀ (l : List α) (l' : List β), l.mapM f = some l' → l'.length = l.length := by
  intro l
  induction l with
  | nil =>
    intro l' h
    rw [List.mapM_nil] at h
    have h' : some ([] : List β) = some l' := h
    cases h'
    rfl
  | cons a as ih =>
    intro l' h
    rw [List.mapM_cons] at h
    cases hfa : f a with
    | none => rw [hfa] at h; simp at h
    | some b =>
      rw [hfa] at h
      cases hrest : as.mapM f with
      | none => rw [hrest] at h; simp at h
      | some bs =>
        rw [hrest] at h
        simp at h
        rw [← h]
        simp [ih bs hrest]

theorem mem_maskFilter_scores (t : ℚ) :
    ∀ (scores : List ℚ) (x : ℚ),
      x ∈ maskFilter (scores.map (fun s => decide (t < s))) scores → t < x := by
  intro scores
  induction scores with
  | nil => intro x h; simp [maskFilter] at h
  | cons s ss ih =>
    intro x h
    simp only [List.map_cons, maskFilter] at h
    by_cases hs : t < s
    · rw [if_pos (by simpa using hs)] at h
      rcases List.mem_cons.mp h with h1 | h1
      · rw [h1]; exact hs
      · exact ih x h1
    · rw [if_neg (by simpa using hs)] at h
      exact ih x h

theorem maskFilter_zip_eq (f : Int → String) (g : ℚ × ℚ × ℚ × ℚ → List Vertex)
    (t : ℚ) :
    ∀ (ss : List ℚ) (ls : List Int) (bs : List (ℚ × ℚ × ℚ × ℚ)),
      ss.length = ls.length → ss.length = bs.length →
      ((maskFilter (ss.map (fun s => decide (t < s))) ss).zip
        (((maskFilter (ss.map (fun s => decide (t < s))) ls).map f).zip
          ((maskFilter (ss.map (fun s => decide (t < s))) bs).map g))).map
          (fun x => (⟨x.1, x.2.1, x.2.2⟩ : Prediction))
        = ((ss.zip (ls.zip bs)).filter (fun x => decide (t < x.1))).map
            (fun x => ⟨x.1, f x.2.1, g x.2.2⟩) := by
  intro ss
  induction ss with
  | nil =>
    intro ls bs _ _
    simp [maskFilter]
  | cons s ss' ih =>
    intro ls bs h1 h2
    cases ls with
    | nil => simp at h1
    | cons l ls' =>
      cases bs with
      | nil => simp at h2
      | cons b bs' =>
        simp only [List.length_cons, Nat.add_right_cancel_iff] at h1 h2
        by_cases hs : t < s
        · simp [maskFilter, hs, ih ls' bs' h1 h2]
        · simp [maskFilter, hs, ih ls' bs' h1 h2]

theorem processAnn_eq_filter (id2label : Int → String) (t : ℚ)
    (ss : List ℚ) (ls : List Int) (bs : List (ℚ × ℚ × ℚ × ℚ))
    (h1 : ss.length = ls.length) (h2 : ss.length = bs.length) :
    processAnn id2label t ⟨ss, ls, bs⟩
      = ((ss.zip (ls.zip bs)).filter (fun x => decide (t < x.1))).map
          (fun x => ⟨x.1, id2label x.2.1, get_clockwise_vertices x.2.2⟩) :=
  maskFilter_zip_eq id2label get_clockwise_vertices t ss ls bs h1 h2

theorem odp_call_batch {Img PImg ModelIn ModelOut : Type}
    (p : ObjectDetectionPipeline Img PImg ModelIn ModelOut) (threshold : ℚ)
    (hpp : ∀ o ts, (p.post_process o ts).length = ts.length)
    (images : List Img) (pimgs : List PImg)
    (hload : images.mapM p.load_image = some pimgs) :
    ∃ res, p.call (.batch images) threshold = some (Sum.inr res)
      ∧ res.length = images.length
      ∧ ∀ preds ∈ res, ∃ ann, preds = processAnn p.id2label threshold ann := by
  refine ⟨(p.post_process (p.model (p.feature_extractor pimgs))
      (pimgs.map (fun im => (p.height im, p.width im)))).map
      (processAnn p.id2label threshold), ?_, ?_, ?_⟩
  · unfold ObjectDetectionPipeline.call
    dsimp only
    rw [hload]
  · rw [List.length_map, hpp, List.length_map]
    exact length_mapM_option p.load_image images pimgs hload
  · intro preds hpreds
    obtain ⟨ann, _, h⟩ := List.mem_map.mp hpreds
    exact ⟨ann, h.symm⟩

theorem odp_call_single {Img PImg ModelIn ModelOut : Type}
    (p : ObjectDetectionPipeline Img PImg ModelIn ModelOut) (threshold : ℚ)
    (hpp : ∀ o ts, (p.post_process o ts).length = ts.length)
    (image : Img) (pimg : PImg)
    (himg : p.load_image image = some pimg) :
    ∃ ann, p.call (.single image) threshold
        = some (Sum.inl (processAnn p.id2label threshold ann)) := by
  have h1 : [image].mapM p.load_image = some [pimg] := by
    rw [List.mapM_cons, himg, List.mapM_nil]
    rfl
  obtain ⟨ann, hann⟩ : ∃ ann, p.post_process (p.model (p.feature_extractor [pimg]))
      [(p.height pimg, p.width pimg)] = [ann] :=
    List.length_eq_one.mp (by rw [hpp]; rfl)
  refine ⟨ann, ?_⟩
  unfold ObjectDetectionPipeline.call
  dsimp only
  rw [h1]
  simp only [List.map_cons, List.map_nil]
  rw [hann]
  rfl

theorem odp_score_mem {Img PImg ModelIn ModelOut : Type}
    (p : ObjectDetectionPipeline Img PImg ModelIn ModelOut) (threshold : ℚ)
    (ann : RawAnn) (pred : Prediction)
    (hmem : pred ∈ processAnn p.id2label threshold ann) :
    threshold < pred.score := by
  unfold processAnn at hmem
  obtain ⟨x, hx, hpred⟩ := List.mem_map.mp hmem
  have hx1 := (List.of_mem_zip hx).1
  rw [← hpred]
  exact mem_maskFilter_scores threshold ann.scores x.1 hx1

/-! ## Claim theorems -/

/-- Claim C8: for `seq_length ≥ 1` and `window_size ≥ 2`,
`custom_get_block_length_and_num_blocks` returns `(d, seq_length / d)` where
`d` is the largest integer in `[1, window_size)` dividing `seq_length` exactly;
such a `d` exists, divides `seq_length`, and the second component times `d`
equals `seq_length`. -/
theorem custom_get_block_length_and_num_blocks_spec (seq_length window_size : Nat)
    (_hseq : 1 ≤ seq_length) (hwin : 2 ≤ window_size) :
    ∃ d, custom_get_block_length_and_num_blocks seq_length window_size
          = some (d, seq_length / d)
      ∧ 1 ≤ d ∧ d < window_size ∧ d ∣ seq_length
      ∧ (∀ c, 1 ≤ c → c < window_size → c ∣ seq_length → c ≤ d)
      ∧ (seq_length / d) * d = seq_length := by
  have h1 : 1 ∈ (List.range' 1 (window_size - 1)).filter
      (fun c => seq_length % c == 0) := by
    simp [List.mem_filter, List.mem_range'_1]
    omega
  have hne := List.maximum_ne_bot_of_ne_nil (List.ne_nil_of_mem h1)
  obtain ⟨d, hd⟩ := WithBot.ne_bot_iff_exists.mp hne
  obtain ⟨hmem, hle⟩ := List.maximum_eq_coe_iff.mp hd.symm
  rw [List.mem_filter] at hmem
  obtain ⟨hrange, hmod⟩ := hmem
  rw [List.mem_range'_1] at hrange
  have hdvd : d ∣ seq_length := by
    refine Nat.dvd_of_mod_eq_zero ?_
    simpa using hmod
  refine ⟨d, cgb_eq_of_maximum _ _ _ hd.symm, by omega, by omega, hdvd, ?_,
    Nat.div_mul_cancel hdvd⟩
  intro c hc1 hc2 hcd
  refine hle c ?_
  rw [List.mem_filter, List.mem_range'_1]
  refine ⟨⟨by omega, by omega⟩, ?_⟩
  have hz : seq_length % c = 0 := Nat.mod_eq_zero_of_dvd hcd
  simp [hz]

/-- Closed witness for Claim C8 at `seq_length = 10`, `window_size = 4`. -/
theorem custom_get_block_length_and_num_blocks_spec_witness :
    (1 ≤ 10 ∧ 2 ≤ 4)
    ∧ (∃ d, custom_get_block_length_and_num_blocks 10 4 = some (d, 10 / d)
        ∧ 1 ≤ d ∧ d < 4 ∧ d ∣ 10 ∧ (∀ c, 1 ≤ c → c < 4 → c ∣ 10 → c ≤ d)
        ∧ (10 / d) * d = 10) :=
  ⟨by decide, custom_get_block_length_and_num_blocks_spec 10 4 (by decide) (by decide)⟩

/-- Claim C9: `expand_attention_types_params` concatenates, over the entries in
order, each entry's type list repeated entry-count times, so its length is the
sum over entries of (number of listed types times the repetition count);
`GPTNeoConfig` construction raises `ValueError` if and only if this length
differs from `num_layers`; with the default `attention_types`
`[[["global", "local"], 12]]` and `num_layers = 24` the layers alternate
`"global", "local"` and construction succeeds. -/
theorem expand_attention_types_params_spec :
    (∀ ats : List (List String × Nat),
      expand_attention_types_params ats
          = (ats.map (fun item => (List.replicate item.2 item.1).flatten)).flatten
        ∧ (expand_attention_types_params ats).length
          = (ats.map (fun item => item.1.length * item.2)).sum)
    ∧ (∀ (F : Type) (vocab_size max_position_embeddings hidden_size num_layers : Nat)
        (attention_types : List (List String × Nat)) (num_heads : Nat)
        (intermediate_size : Option Nat) (window_size : Nat)
        (activation_function : String)
        (resid_dropout embed_dropout attention_dropout : F)
        (layer_norm_epsilon initializer_range : F)
        (summary_type : String) (summary_use_proj : Bool)
        (summary_activation : Option String) (summary_proj_to_labels : Bool)
        (summary_first_dropout : F) (vocab_parallel_embedding : Bool)
        (make_vocab_size_divisible_by : Nat) (use_cache : Bool)
        (bos_token_id eos_token_id : Nat),
        (∃ e, GPTNeoConfig.mk? F vocab_size max_position_embeddings hidden_size
            num_layers attention_types num_heads intermediate_size window_size
            activation_function resid_dropout embed_dropout attention_dropout
            layer_norm_epsilon initializer_range summary_type summary_use_proj
            summary_activation summary_proj_to_labels summary_first_dropout
            vocab_parallel_embedding make_vocab_size_divisible_by use_cache
            bos_token_id eos_token_id = .error e)
          ↔ (expand_attention_types_params attention_types).length ≠ num_layers)
    ∧ expand_attention_types_params default_attention_types
        = ["global", "local", "global", "local", "global", "local", "global", "local",
           "global", "local", "global", "local", "global", "local", "global", "local",
           "global", "local", "global", "local", "global", "local", "global", "local"]
    ∧ (∃ cfg : GPTNeoConfig Unit,
        GPTNeoConfig.mk? Unit 50257 2048 2048 24 default_attention_types 16 none 256
            "gelu_new" () () () () () "cls_index" true none true () false 128 true
            50256 50256 = .ok cfg
        ∧ cfg.attention_layers
            = ["global", "local", "global", "local", "global", "local", "global", "local",
               "global", "local", "global", "local", "global", "local", "global", "local",
               "global", "local", "global", "local", "global", "local", "global", "local"]) := by
  refine ⟨fun ats => ⟨expand_eq_flatten ats, expand_length ats⟩, ?_, by rfl, ?_⟩
  · intro F vocab_size max_position_embeddings hidden_size num_layers attention_types
      num_heads intermediate_size window_size activation_function resid_dropout
      embed_dropout attention_dropout layer_norm_epsilon initializer_range summary_type
      summary_use_proj summary_activation summary_proj_to_labels summary_first_dropout
      vocab_parallel_embedding make_vocab_size_divisible_by use_cache bos_token_id
      eos_token_id
    unfold GPTNeoConfig.mk?
    simp only []
    split
    · rename_i hcond
      exact iff_of_true ⟨_, rfl⟩ hcond
    · rename_i hcond
      exact iff_of_false (by simp) hcond
  · exact ⟨_, rfl, rfl⟩

/-- Claim C3: `GPTNeoConfig.__init__` stores each named hyperparameter argument
unchanged as a same-named attribute (the structure holds no model parameter
tensors) and sets `attention_layers` to the expansion of `attention_types`. -/
theorem GPTNeoConfig_init_stores_hyperparameters (F : Type)
    (vocab_size max_position_embeddings hidden_size num_layers : Nat)
    (attention_types : List (List String × Nat)) (num_heads : Nat)
    (intermediate_size : Option Nat) (window_size : Nat)
    (activation_function : String)
    (resid_dropout embed_dropout attention_dropout : F)
    (layer_norm_epsilon initializer_range : F)
    (summary_type : String) (summary_use_proj : Bool)
    (summary_activation : Option String) (summary_proj_to_labels : Bool)
    (summary_first_dropout : F) (vocab_parallel_embedding : Bool)
    (make_vocab_size_divisible_by : Nat) (use_cache : Bool)
    (bos_token_id eos_token_id : Nat)
    (h : (expand_attention_types_params attention_types).length = num_layers) :
    GPTNeoConfig.mk? F vocab_size max_position_embeddings hidden_size num_layers
        attention_types num_heads intermediate_size window_size activation_function
        resid_dropout embed_dropout attention_dropout layer_norm_epsilon
        initializer_range summary_type summary_use_proj summary_activation
        summary_proj_to_labels summary_first_dropout vocab_parallel_embedding
        make_vocab_size_divisible_by use_cache bos_token_id eos_token_id
      = .ok {
          vocab_size := vocab_size
          max_position_embeddings := max_position_embeddings
          hidden_size := hidden_size
          num_layers := num_layers
          num_heads := num_heads
          intermediate_size := intermediate_size
          window_size := window_size
          activation_function := activation_function
          resid_dropout := resid_dropout
          embed_dropout := embed_dropout
          attention_dropout := attention_dropout
          layer_norm_epsilon := layer_norm_epsilon
          initializer_range := initializer_range
          summary_type := summary_type
          summary_use_proj := summary_use_proj
          summary_activation := summary_activation
          summary_first_dropout := summary_first_dropout
          summary_proj_to_labels := summary_proj_to_labels
          vocab_parallel_embedding := vocab_parallel_embedding
          make_vocab_size_divisible_by := make_vocab_size_divisible_by
          use_cache := use_cache
          bos_token_id := bos_token_id
          eos_token_id := eos_token_id
          attention_types := attention_types
          attention_layers := expand_attention_types_params attention_types } := by
  unfold GPTNeoConfig.mk?
  simp [h]

/-- Closed witness for Claim C3 at the default hyperparameter values
(with `F = Unit`). -/
theorem GPTNeoConfig_init_stores_hyperparameters_witness :
    (expand_attention_types_params default_attention_types).length = 24
    ∧ GPTNeoConfig.mk? Unit 50257 2048 2048 24 default_attention_types 16 none 256
        "gelu_new" () () () () () "cls_index" true none true () false 128 true
        50256 50256
      = .ok {
          vocab_size := 50257
          max_position_embeddings := 2048
          hidden_size := 2048
          num_layers := 24
          num_heads := 16
          intermediate_size := none
          window_size := 256
          activation_function := "gelu_new"
          resid_dropout := ()
          embed_dropout := ()
          attention_dropout := ()
          layer_norm_epsilon := ()
          initializer_range := ()
          summary_type := "cls_index"
          summary_use_proj := true
          summary_activation := none
          summary_first_dropout := ()
          summary_proj_to_labels := true
          vocab_parallel_embedding := false
          make_vocab_size_divisible_by := 128
          use_cache := true
          bos_token_id := 50256
          eos_token_id := 50256
          attention_types := default_attention_types
          attention_layers := expand_attention_types_params default_attention_types } :=
  ⟨by decide, GPTNeoConfig_init_stores_hyperparameters Unit 50257 2048 2048 24
    default_attention_types 16 none 256 "gelu_new" () () () () () "cls_index" true
    none true () false 128 true 50256 50256 (by decide)⟩

/-- Claim C10: the stop-sequence trimming of `HfApiEngine.__call__` and
`TransformersEngine.__call__` is the same function of
`(response, stop_sequences)`; it iterates once over the stop sequences in list
order and each iteration removes at most one occurrence of the stop sequence as
a suffix; consequently the returned text can still end with a stop sequence
(witnessed by `response = "abab"` with the single stop sequence `"ab"`, whose
result `"ab"` still ends with `"ab"`). -/
theorem remove_stop_sequences_equiv :
    (∀ (response : String) (stop_sequences : List String),
        transformersEngine_remove_stop_sequences response (some stop_sequences)
          = hfApiEngine_remove_stop_sequences response stop_sequences)
    ∧ (∀ (response stop_seq : String),
        hfApiEngine_remove_step response stop_seq = response
        ∨ hfApiEngine_remove_step response stop_seq
            = response.dropRight stop_seq.length)
    ∧ hfApiEngine_remove_stop_sequences "abab" ["ab"] = "ab"
    ∧ (hfApiEngine_remove_stop_sequences "abab" ["ab"]).takeRight
        ("ab" : String).length = "ab" := by
  refine ⟨fun _ _ => rfl, ?_, by decide, by decide⟩
  intro r stop
  by_cases h0 : stop.length = 0
  · have hstop : stop = "" := by
      cases stop with
      | mk data =>
        simp [String.length] at h0
        simp [h0]
    subst hstop
    left
    simp only [hfApiEngine_remove_step, if_pos rfl]
    split <;> simp_all
  · simp only [hfApiEngine_remove_step, if_neg h0]
    split
    · right; rfl
    · left; rfl

/-- Claim C4: `ImageFeatureExtractionPipeline` defines the three stages
`preprocess` (load the image, then apply the image processor), `_forward`
(apply the model), and `postprocess`, chained in that order by the pipeline
call; `postprocess` returns the first model output tensor unchanged when
`return_tensors` is true, and otherwise its nested-list conversion (`tolist()`
for `"pt"`, `numpy().tolist()` for `"tf"`). -/
theorem ImageFeatureExtractionPipeline_stages {Img PImg TIn Tensor NL : Type}
    (p : ImageFeatureExtractionPipeline Img PImg TIn Tensor NL)
    (image : Img) (model_outputs : List Tensor) (t : Tensor) (rest : List Tensor)
    (h : model_outputs = t :: rest) :
    p.preprocess image = p.image_processor (p.load_image image)
    ∧ p.forward (p.preprocess image) = p.model (p.image_processor (p.load_image image))
    ∧ (∀ rt, p.call image rt = p.postprocess (p.forward (p.preprocess image)) rt)
    ∧ p.postprocess model_outputs true = some (Sum.inl t)
    ∧ (p.framework = "pt" →
        p.postprocess model_outputs false = some (Sum.inr (p.tolist t)))
    ∧ (p.framework = "tf" →
        p.postprocess model_outputs false = some (Sum.inr (p.numpy_tolist t))) := by
  subst h
  refine ⟨rfl, rfl, fun _ => rfl, rfl, ?_, ?_⟩
  · intro hf
    simp [ImageFeatureExtractionPipeline.postprocess, hf]
  · intro hf
    simp [ImageFeatureExtractionPipeline.postprocess, hf]

/-- Closed witness for Claim C4 on the concrete sample pipeline. -/
theorem ImageFeatureExtractionPipeline_stages_witness :
    ([4, 9] = 4 :: [9])
    ∧ (sampleIFEPipeline.preprocess 1
          = sampleIFEPipeline.image_processor (sampleIFEPipeline.load_image 1)
        ∧ sampleIFEPipeline.forward (sampleIFEPipeline.preprocess 1)
          = sampleIFEPipeline.model
              (sampleIFEPipeline.image_processor (sampleIFEPipeline.load_image 1))
        ∧ (∀ rt, sampleIFEPipeline.call 1 rt
            = sampleIFEPipeline.postprocess
                (sampleIFEPipeline.forward (sampleIFEPipeline.preprocess 1)) rt)
        ∧ sampleIFEPipeline.postprocess [4, 9] true = some (Sum.inl 4)
        ∧ (sampleIFEPipeline.framework = "pt" →
            sampleIFEPipeline.postprocess [4, 9] false
              = some (Sum.inr (sampleIFEPipeline.tolist 4)))
        ∧ (sampleIFEPipeline.framework = "tf" →
            sampleIFEPipeline.postprocess [4, 9] false
              = some (Sum.inr (sampleIFEPipeline.numpy_tolist 4)))) :=
  ⟨rfl, ImageFeatureExtractionPipeline_stages sampleIFEPipeline 1 [4, 9] 4 [9] rfl⟩

/-- Claim C6: a tokenizer vocabulary is a string-to-integer mapping that
round-trips — for a well-formed vocabulary (no duplicate tokens, no duplicate
ids), each token maps to its id and back, and each id maps to its token and
back — and `LayoutLMTokenizer` performs exactly the same tokenization as
`BertTokenizer`, differing only in its vocabulary-file configuration. -/
theorem layoutlm_tokenizer_vocab_round_trip (vocab : Vocab) (token : String) (i : Nat)
    (hnd_tokens : (vocab.map Prod.fst).Nodup) (hnd_ids : (vocab.map Prod.snd).Nodup)
    (hmem : (token, i) ∈ vocab) :
    convert_token_to_id vocab token = some i
    ∧ convert_id_to_token vocab i = some token
    ∧ (∀ (bert_tokenize : Vocab → String → List String) (v : Vocab) (text : String),
        layoutlm_tokenize bert_tokenize v text = bert_tokenize v text) := by
  refine ⟨?_, ?_, fun _ _ _ => rfl⟩
  · rw [convert_token_to_id, vocab_find_token vocab token i hmem hnd_tokens]; rfl
  · rw [convert_id_to_token, vocab_find_id vocab token i hmem hnd_ids]; rfl

/-- Closed witness for Claim C6 on the vocabulary
`[("hello", 0), ("world", 1)]`. -/
theorem layoutlm_tokenizer_vocab_round_trip_witness :
    (([("hello", 0), ("world", 1)] : Vocab).map Prod.fst).Nodup
    ∧ (([("hello", 0), ("world", 1)] : Vocab).map Prod.snd).Nodup
    ∧ ("world", 1) ∈ ([("hello", 0), ("world", 1)] : Vocab)
    ∧ (convert_token_to_id [("hello", 0), ("world", 1)] "world" = some 1
        ∧ convert_id_to_token [("hello", 0), ("world", 1)] 1 = some "world"
        ∧ (∀ (bert_tokenize : Vocab → String → List String) (v : Vocab) (text : String),
            layoutlm_tokenize bert_tokenize v text = bert_tokenize v text)) :=
  ⟨by decide, by decide, by decide,
    layoutlm_tokenizer_vocab_round_trip [("hello", 0), ("world", 1)] "world" 1
      (by decide) (by decide) (by decide)⟩

/-- Claim C1: for every input whose messages each have exactly the keys
`role` and `content` and a supported role, `get_clean_message_list` succeeds
and returns a list in which no two adjacent messages have the same role: each
maximal run of consecutive messages sharing the same role (after applying
`role_conversions`) is merged into a single message whose content is the run's
contents joined in input order by the separator `"\n=======\n"`, and the
merged messages appear in the input order of the runs. -/
theorem get_clean_message_list_merges_runs (message_list : List PyDict)
    (role_conversions : List (String × String))
    (hvalid : ∀ m ∈ message_list, keysOk m = true
      ∧ MessageRole.roles.contains (dget m "role") = true) :
    ∃ L, get_clean_message_list message_list role_conversions = .ok L
      ∧ List.Chain' (fun a b => dget a "role" ≠ dget b "role") L
      ∧ L.map projMessage
          = (specRuns ((message_list.map projMessage).map
              (applyRoleConversion role_conversions))).map collapseRun := by
  obtain ⟨L, hok, _hkeys, hmap⟩ :=
    gcml_loop_simulation role_conversions message_list [] hvalid (by simp)
  refine ⟨L, hok, ?_, ?_⟩
  · have hchain : List.Chain' (fun a b => a.role ≠ b.role) (L.map projMessage) := by
      rw [hmap, List.map_nil, clean_loop_eq_runs]
      cases hms : (message_list.map projMessage).map (applyRoleConversion role_conversions) with
      | nil => simp [specRuns]
      | cons m rest =>
        simp only [specRuns]
        have h2 := mergeAux_eq_collapse_runs rest [m] (by simp)
        rw [collapseRun_singleton] at h2
        rw [← h2]
        exact mergeAux_chain rest m
    rw [List.chain'_map] at hchain
    exact hchain
  · rw [hmap, List.map_nil, clean_loop_eq_runs]

/-- Closed witness for Claim C1 on a three-message list (user, tool-response,
assistant) under `llama_role_conversions`, whose first two messages merge. -/
theorem merges_runs_witness :
    (∀ m ∈ [[("role", "user"), ("content", "a")],
            [("role", "tool-response"), ("content", "b")],
            [("role", "assistant"), ("content", "c")]],
        keysOk m = true ∧ MessageRole.roles.contains (dget m "role") = true)
    ∧ (∃ L, get_clean_message_list
          [[("role", "user"), ("content", "a")],
           [("role", "tool-response"), ("content", "b")],
           [("role", "assistant"), ("content", "c")]] llama_role_conversions = .ok L
        ∧ List.Chain' (fun a b => dget a "role" ≠ dget b "role") L
        ∧ L.map projMessage
            = (specRuns (([[("role", "user"), ("content", "a")],
                [("role", "tool-response"), ("content", "b")],
                [("role", "assistant"), ("content", "c")]].map projMessage).map
                (applyRoleConversion llama_role_conversions))).map collapseRun) :=
  ⟨by decide,
    get_clean_message_list_merges_runs
      [[("role", "user"), ("content", "a")],
       [("role", "tool-response"), ("content", "b")],
       [("role", "assistant"), ("content", "c")]] llama_role_conversions (by decide)⟩

/-- Claim C2: `get_clean_message_list` raises if and only if some message has
a key set different from exactly `{"role", "content"}` or a role (before any
conversion) outside the five supported roles; messages are validated in input
order with the key check before the role check (the error raised is
`firstErrorOf`, the error of the first invalid message); the original input
list is left unmodified on success (the Python function deep-copies its input,
making it pure, which the embedding reflects). -/
theorem get_clean_message_list_error_iff (message_list : List PyDict)
    (role_conversions : List (String × String)) :
    (∀ e, get_clean_message_list message_list role_conversions = .error e
        ↔ firstErrorOf message_list = some e)
    ∧ ((∃ L, get_clean_message_list message_list role_conversions = .ok L)
        ↔ firstErrorOf message_list = none)
    ∧ (firstErrorOf message_list = none
        ↔ ∀ m ∈ message_list, keysOk m = true
            ∧ MessageRole.roles.contains (dget m "role") = true) := by
  obtain ⟨herr, hok⟩ := gcml_loop_vs_firstError role_conversions message_list []
  refine ⟨?_, ?_, ?_⟩
  · intro e
    constructor
    · intro h
      cases hfe : firstErrorOf message_list with
      | none =>
        obtain ⟨L, hL⟩ := hok hfe
        rw [get_clean_message_list] at h
        rw [hL] at h
        cases h
      | some e' =>
        have h2 := herr e' hfe
        rw [get_clean_message_list] at h
        rw [h2] at h
        injection h with h
        rw [h]
    · intro h
      rw [get_clean_message_list]
      exact herr e h
  · constructor
    · rintro ⟨L, hL⟩
      cases hfe : firstErrorOf message_list with
      | none => rfl
      | some e =>
        have h2 := herr e hfe
        rw [get_clean_message_list] at hL
        rw [h2] at hL
        cases hL
    · intro h
      obtain ⟨L, hL⟩ := hok h
      exact ⟨L, hL⟩
  · exact firstErrorOf_eq_none_iff message_list

/-- Claim C5: for every call of `ObjectDetectionPipeline.__call__` with
threshold `t` (default 0.9), assuming the external `post_process` returns one
annotation per target size: a single image yields a list of dictionaries and a
list of `n` images yields a list of `n` lists; each dictionary has exactly the
keys `"score"`, `"label"`, `"box"`; exactly the detections with score strictly
greater than `t` are kept (in order); and every box value is the list of the
four corner dictionaries of the bounding box in clockwise order starting from
the top-left corner. -/
theorem ObjectDetectionPipeline_call_spec {Img PImg ModelIn ModelOut : Type}
    (p : ObjectDetectionPipeline Img PImg ModelIn ModelOut) (threshold : ℚ)
    (hpp : ∀ o ts, (p.post_process o ts).length = ts.length) :
    (∀ (images : List Img) (pimgs : List PImg),
        images.mapM p.load_image = some pimgs →
        ∃ res, p.call (.batch images) threshold = some (Sum.inr res)
          ∧ res.length = images.length
          ∧ ∀ preds ∈ res, ∃ ann, preds = processAnn p.id2label threshold ann)
    ∧ (∀ (image : Img) (pimg : PImg), p.load_image image = some pimg →
        ∃ ann, p.call (.single image) threshold
            = some (Sum.inl (processAnn p.id2label threshold ann)))
    ∧ (∀ (ss : List ℚ) (ls : List Int) (bs : List (ℚ × ℚ × ℚ × ℚ)),
        ss.length = ls.length → ss.length = bs.length →
        processAnn p.id2label threshold ⟨ss, ls, bs⟩
          = ((ss.zip (ls.zip bs)).filter (fun x => decide (threshold < x.1))).map
              (fun x => ⟨x.1, p.id2label x.2.1, get_clockwise_vertices x.2.2⟩))
    ∧ (∀ (ann : RawAnn) (pred : Prediction),
        pred ∈ processAnn p.id2label threshold ann → threshold < pred.score)
    ∧ (∀ box : ℚ × ℚ × ℚ × ℚ,
        get_clockwise_vertices box
          = specClockwiseFromTopLeft (pyInt box.1) (pyInt box.2.1)
              (pyInt box.2.2.1) (pyInt box.2.2.2))
    ∧ predictionKeys = ["score", "label", "box"] :=
  ⟨odp_call_batch p threshold hpp,
   odp_call_single p threshold hpp,
   fun ss ls bs h1 h2 => processAnn_eq_filter p.id2label threshold ss ls bs h1 h2,
   odp_score_mem p threshold,
   fun _ => rfl,
   rfl⟩

/-- Closed witness for Claim C5 on the concrete sample pipeline at the default
threshold `9/10`. -/
theorem ObjectDetectionPipeline_call_spec_witness :
    (∀ (o : Unit) (ts : List (Nat × Nat)),
        (sampleODPipeline.post_process o ts).length = ts.length)
    ∧ ((∀ (images : List Nat) (pimgs : List Nat),
          images.mapM sampleODPipeline.load_image = some pimgs →
          ∃ res, sampleODPipeline.call (.batch images) (9 / 10) = some (Sum.inr res)
            ∧ res.length = images.length
            ∧ ∀ preds ∈ res, ∃ ann,
                preds = processAnn sampleODPipeline.id2label (9 / 10) ann)
      ∧ (∀ (image : Nat) (pimg : Nat),
          sampleODPipeline.load_image image = some pimg →
          ∃ ann, sampleODPipeline.call (.single image) (9 / 10)
              = some (Sum.inl (processAnn sampleODPipeline.id2label (9 / 10) ann)))
      ∧ (∀ (ss : List ℚ) (ls : List Int) (bs : List (ℚ × ℚ × ℚ × ℚ)),
          ss.length = ls.length → ss.length = bs.length →
          processAnn sampleODPipeline.id2label (9 / 10) ⟨ss, ls, bs⟩
            = ((ss.zip (ls.zip bs)).filter (fun x => decide ((9 : ℚ) / 10 < x.1))).map
                (fun x => ⟨x.1, sampleODPipeline.id2label x.2.1,
                  get_clockwise_vertices x.2.2⟩))
      ∧ (∀ (ann : RawAnn) (pred : Prediction),
          pred ∈ processAnn sampleODPipeline.id2label (9 / 10) ann →
          (9 : ℚ) / 10 < pred.score)
      ∧ (∀ box : ℚ × ℚ × ℚ × ℚ,
          get_clockwise_vertices box
            = specClockwiseFromTopLeft (pyInt box.1) (pyInt box.2.1)
                (pyInt box.2.2.1) (pyInt box.2.2.2))
      ∧ predictionKeys = ["score", "label", "box"]) :=
  ⟨fun _ ts => by simp [sampleODPipeline],
   ObjectDetectionPipeline_call_spec sampleODPipeline (9 / 10)
     (fun _ ts => by simp [sampleODPipeline])⟩

end Transformers
